import Mathlib

/-!
Shallow embedding of `src/crypto/verification/request/VerificationRequest.js`:
the verification-request state machine (phase transitions, event bookkeeping,
observe-only detection, verifier creation) and the stateless event validator.
JS `Map`s keyed by event-type strings are modelled as association lists,
JS numbers/strings used as phase markers are modelled by the `PhaseValue`
sum, and JS exceptions are modelled with `Except VError`.
-/

deriving instance DecidableEq for Except

set_option maxRecDepth 10000

namespace MatrixVerification

/-- JS `String.prototype.startsWith`, character by character. -/
def strStartsWith (s p : String) : Bool :=
  p.data.isPrefixOf s.data

/-- Wire constants from the source. -/
def EVENT_PREFIX : String := "m.key.verification."

def REQUEST_TYPE : String := EVENT_PREFIX ++ "request"

def START_TYPE : String := EVENT_PREFIX ++ "start"

def CANCEL_TYPE : String := EVENT_PREFIX ++ "cancel"

def DONE_TYPE : String := EVENT_PREFIX ++ "done"

def READY_TYPE : String := EVENT_PREFIX ++ "ready"

/-- The source stores phase markers as JS numbers (`PHASE_UNSENT = 1`, ...,
`PHASE_DONE = 6`), but `_calculatePhaseTransitions` also pushes the *string*
`START_TYPE` as a phase.  JS strict equality between a number and a string is
always false, which this sum type reproduces faithfully. -/
inductive PhaseValue where
  | num (n : Nat)
  | str (s : String)
  deriving DecidableEq, Repr

def PHASE_UNSENT : PhaseValue := .num 1

def PHASE_REQUESTED : PhaseValue := .num 2

def PHASE_READY : PhaseValue := .num 3

def PHASE_STARTED : PhaseValue := .num 4

def PHASE_CANCELLED : PhaseValue := .num 5

def PHASE_DONE : PhaseValue := .num 6

/-- The phase value `_calculatePhaseTransitions` actually pushes for a start
event: the string `START_TYPE`, not the number `PHASE_STARTED`. -/
def START_TYPE_PHASE : PhaseValue := .str START_TYPE

/-- Decoded content of a verification event (`event.getContent()`); absent
JS fields are `none`. -/
structure MsgContent where
  methods : Option (List String) := none
  from_device : Option String := none
  method : Option String := none
  code : Option String := none
  reason : Option String := none
  deriving DecidableEq, Repr

/-- A MatrixEvent as consumed by this module: its sender and content. -/
structure Event where
  sender : String
  content : MsgContent
  deriving DecidableEq, Repr

/-- Errors thrown by the source (`newUnknownMethodError`, the addressing
`Error` in `_getVerifierTarget`, and JS `TypeError`s from accessing fields of
`undefined`). -/
inductive VError where
  | unknownMethod
  | targetError
  | typeError (what : String)
  deriving DecidableEq, Repr

/-- A verifier instance, as constructed by `_createVerifier`
(`new VerifierCtor(channel, client, userId, deviceId, startEvent)`), together
with the events forwarded to it through `handleEvent`. -/
structure Verifier where
  method : String
  userId : String
  deviceId : Option String
  startEvent : Option Event
  events : List String
  handledEvents : List Event
  deriving DecidableEq, Repr

/-- Explicit verifier addressing (`targetDevice` in `beginKeyVerification`). -/
structure VerifierTarget where
  userId : String
  deviceId : Option String
  deriving DecidableEq, Repr

/-- One entry of the list built by `_calculatePhaseTransitions`. -/
structure Transition where
  phase : PhaseValue
  event : Option Event := none
  deriving DecidableEq, Repr

/-- The fixed collaborators of one request: local identity (`client`),
counterparty identity (`channel.userId`), the verification-method registry
keys, the channel's `canCreateRequest(START_TYPE)` answer, and the `events`
list each method's verifier declares. -/
structure Context where
  userId : String
  deviceId : String
  otherUserId : String
  verificationMethods : List String
  canCreateRequestStart : Bool
  verifierEvents : List (String × List String)
  deriving DecidableEq, Repr

/-- The mutable fields of a `VerificationRequest`. -/
structure VerificationRequest where
  phase : PhaseValue
  commonMethods : List String
  observeOnly : Bool
  initiatedByMe : Option Bool
  cancellingUserId : Option String
  eventsByUs : List (String × Event)
  eventsByThem : List (String × Event)
  verifier : Option Verifier
  requestEvent : Option Event
  readyEvent : Option Event
  deriving DecidableEq, Repr

/-- The state built by the constructor: `PHASE_UNSENT` (without notifying),
empty bookkeeping, not observe-only.  `_initiatedByMe`, `_cancellingUserId`,
`_verifier`, `_requestEvent` and `_readyEvent` start undefined. -/
def initialState : VerificationRequest where
  phase := PHASE_UNSENT
  commonMethods := []
  observeOnly := false
  initiatedByMe := none
  cancellingUserId := none
  eventsByUs := []
  eventsByThem := []
  verifier := none
  requestEvent := none
  readyEvent := none

/-- `Map.get`: first entry with the given key. -/
def mapGet (m : List (String × Event)) (k : String) : Option Event :=
  match m with
  | [] => none
  | p :: rest => if p.1 = k then some p.2 else mapGet rest k

/-- `Map.set`: overwrite the entry with the given key, else append. -/
def mapSet (m : List (String × Event)) (k : String) (v : Event) :
    List (String × Event) :=
  match m with
  | [] => [(k, v)]
  | p :: rest => if p.1 = k then (k, v) :: rest else p :: mapSet rest k v

/-- JS property access `map[key]` on a `Map` object: entries added with
`.set` live in the map's internal storage, not as object properties, so this
access always yields `undefined`.  The source reads the done events this way
(`this._eventsByUs[DONE_TYPE]`). -/
def mapProp (_m : List (String × Event)) (_k : String) : Option Event :=
  none

/-- `_wasSentByOwnUser`. -/
def wasSentByOwnUser (ctx : Context) (ev : Event) : Bool :=
  decide (ev.sender = ctx.userId)

/-- `_wasSentByOwnDevice`: sent by the local user and carrying the local
device id in `from_device`. -/
def wasSentByOwnDevice (ctx : Context) (ev : Event) : Bool :=
  wasSentByOwnUser ctx ev &&
    decide (ev.content.from_device = some ctx.deviceId)

/-- `VERIFICATION_REQUEST_TIMEOUT` (10 minutes, in ms). -/
def VERIFICATION_REQUEST_TIMEOUT : Int := 10 * 60 * 1000

/-- `VERIFICATION_REQUEST_MARGIN` (3 seconds, in ms). -/
def VERIFICATION_REQUEST_MARGIN : Int := 3 * 1000

/-- The `from_device` check of `validateEvent`: the field must be a string of
nonzero length. -/
def fromDeviceOk (ev : Event) : Bool :=
  match ev.content.from_device with
  | some d => decide (d.length ≠ 0)
  | none => false

/-- `VerificationRequest.validateEvent`.  `timestamp = none` models a
non-finite (absent) timestamp; `now` models `Date.now()`. -/
def validateEvent (ty : String) (ev : Event) (timestamp : Option Int)
    (now : Int) : Bool :=
  if ¬ strStartsWith ty EVENT_PREFIX then false
  else if (ty = REQUEST_TYPE ∨ ty = READY_TYPE) ∧ ev.content.methods = none
    then false
  else if (ty = REQUEST_TYPE ∨ ty = READY_TYPE ∨ ty = START_TYPE) ∧
      fromDeviceOk ev = false then false
  else
    match timestamp with
    | some ts =>
      let elapsed := now - ts
      if elapsed > VERIFICATION_REQUEST_TIMEOUT - VERIFICATION_REQUEST_MARGIN ∨
          elapsed < -(VERIFICATION_REQUEST_TIMEOUT / 2) then false
      else true
    | none => true

/-- The timestamp-independent part of `validateEvent` (a message with no
timestamp is valid exactly when its structure is). -/
def structuralValid (ty : String) (ev : Event) : Bool :=
  validateEvent ty ev none 0

/-- `_getEventByEither`: their entry wins over ours. -/
def getEventByEither (s : VerificationRequest) (ty : String) : Option Event :=
  match mapGet s.eventsByThem ty with
  | some e => some e
  | none => mapGet s.eventsByUs ty

/-- `_getEventByOther`: the entry of whichever side is not `notSender`. -/
def getEventByOther (ctx : Context) (s : VerificationRequest) (ty : String)
    (notSender : String) : Option Event :=
  if notSender = ctx.userId then mapGet s.eventsByThem ty
  else mapGet s.eventsByUs ty

/-- `transitions[transitions.length - 1].phase` (the list is never empty
where the source reads it). -/
def topPhase (l : List Transition) : PhaseValue :=
  ((l.map Transition.phase).getLast?).getD PHASE_UNSENT

/-- The request/ready stage of `_calculatePhaseTransitions` (lines
352-370): `[Unsent]`, extended by Requested when a request message exists,
extended by Ready when a ready message exists from the party that did not
author the request. -/
def calcAfterRequest (ctx : Context) (s : VerificationRequest) :
    List Transition :=
  [{ phase := PHASE_UNSENT }] ++
    (match getEventByEither s REQUEST_TYPE with
     | none => []
     | some requestEvent =>
       { phase := PHASE_REQUESTED, event := some requestEvent } ::
         (match getEventByOther ctx s READY_TYPE requestEvent.sender with
          | none => []
          | some readyEvent =>
            [{ phase := PHASE_READY, event := some readyEvent }]))

/-- The start stage of `_calculatePhaseTransitions` (lines 372-381).
Faithful to the source: the pushed transition carries the *string*
`START_TYPE` as its phase (line 379), not `PHASE_STARTED`. -/
def calcAfterStart (ctx : Context) (s : VerificationRequest) :
    List Transition :=
  let afterReq := calcAfterRequest ctx s
  match getEventByEither s START_TYPE with
  | none => afterReq
  | some startEvent =>
    let fromRequestPhase : Bool :=
      decide (topPhase afterReq = PHASE_REQUESTED) &&
        (match getEventByEither s REQUEST_TYPE with
         | some requestEvent => decide (requestEvent.sender ≠ startEvent.sender)
         | none => false)
    let fromUnsentPhase : Bool := decide (topPhase afterReq = PHASE_UNSENT) &&
      ctx.canCreateRequestStart
    if fromRequestPhase || decide (topPhase afterReq = PHASE_READY) ||
        fromUnsentPhase
    then afterReq ++ [{ phase := START_TYPE_PHASE, event := some startEvent }]
    else afterReq

/-- `_calculatePhaseTransitions`: recompute the ordered transition list from
the bookkeeping maps.  Cancellation wins and returns immediately (lines
355-359); the done stage (lines 383-387) reads the done events through
property access on the `Map`s, which always yields `undefined`. -/
def calculatePhaseTransitions (ctx : Context) (s : VerificationRequest) :
    List Transition :=
  match getEventByEither s CANCEL_TYPE with
  | some cancelEvent =>
    [{ phase := PHASE_UNSENT },
     { phase := PHASE_CANCELLED, event := some cancelEvent }]
  | none =>
    let afterStart := calcAfterStart ctx s
    if (mapProp s.eventsByUs DONE_TYPE).isSome = true ∧
        (mapProp s.eventsByThem DONE_TYPE).isSome = true ∧
        topPhase afterStart = START_TYPE_PHASE
    then afterStart ++ [{ phase := PHASE_DONE }]
    else afterStart

/-- Access `transition.event` where the source would dereference it
(`event.getContent()`, `event.getSender()`); an absent event there would be
a JS `TypeError`. -/
def transitionEvent (t : Transition) : Except VError Event :=
  match t.event with
  | some e => Except.ok e
  | none => Except.error (VError.typeError "event")

/-- `_getVerifierTarget`: explicit target if supplied, else the first
non-locally-authored event among start / `_readyEvent` / `_requestEvent`,
else the addressing error. -/
def getVerifierTarget (ctx : Context) (s : VerificationRequest)
    (startEvent : Option Event) (targetDevice : Option VerifierTarget) :
    Except VError VerifierTarget :=
  match targetDevice with
  | some td => Except.ok td
  | none =>
    let notOwn : Option Event → Option Event := fun oe =>
      match oe with
      | some e => if wasSentByOwnDevice ctx e then none else some e
      | none => none
    let pick : Option Event :=
      match notOwn startEvent with
      | some e => some e
      | none =>
        match notOwn s.readyEvent with
        | some e => some e
        | none => notOwn s.requestEvent
    match pick with
    | none => Except.error VError.targetError
    | some e => Except.ok { userId := e.sender, deviceId := e.content.from_device }

/-- `_createVerifier`: resolve the target, look the method up in the
registry (returning `none`, i.e. JS `undefined`, when it is absent), and
construct the verifier.  `method` is `Option` because the source also passes
`content.method` of a start event, which may be absent. -/
def createVerifier (ctx : Context) (s : VerificationRequest)
    (method : Option String) (startEvent : Option Event)
    (targetDevice : Option VerifierTarget) : Except VError (Option Verifier) :=
  let initiatedByMe : Bool :=
    match startEvent with
    | none => true
    | some e => wasSentByOwnDevice ctx e
  match getVerifierTarget ctx s startEvent targetDevice with
  | Except.error e => Except.error e
  | Except.ok target =>
    match method with
    | none => Except.ok none
    | some m =>
      if ctx.verificationMethods.contains m then
        Except.ok (some
          { method := m
            userId := target.userId
            deviceId := target.deviceId
            startEvent := if initiatedByMe then none else startEvent
            events := ((ctx.verifierEvents.find? (fun p => p.1 = m)).map (·.2)).getD []
            handledEvents := [] })
      else Except.ok none

/-- Modelled from the spec: the source's `PHASE_STARTED` branch ends with
`this._handleStart(transition)`, a method defined nowhere under `src/`.
Per spec section 4.3, reaching Started delivers the causing start message
to the freshly created verifier. -/
def handleStart (s : VerificationRequest) (t : Transition) :
    VerificationRequest :=
  match s.verifier, t.event with
  | some v, some ev =>
    { s with verifier := some { v with handledEvents := v.handledEvents ++ [ev] } }
  | _, _ => s

/-- The "get common methods" block of `_transitionToPhase` (lines 394-401):
on Requested or Ready caused by a message not sent by the own device, replace
`commonMethods` with the message's methods filtered by the local registry. -/
def stepCommonMethods (ctx : Context) (s : VerificationRequest)
    (t : Transition) : Except VError VerificationRequest :=
  if t.phase = PHASE_REQUESTED ∨ t.phase = PHASE_READY then
    match transitionEvent t with
    | Except.error e => Except.error e
    | Except.ok ev =>
      if wasSentByOwnDevice ctx ev = false then
        match ev.content.methods with
        | some ms =>
          Except.ok { s with
            commonMethods := ms.filter (fun m => ctx.verificationMethods.contains m) }
        | none => Except.error (VError.typeError "methods")
      else Except.ok s
  else Except.ok s

/-- The observe-only detection block of `_transitionToPhase` (lines
402-412), evaluated only while not already observe-only. -/
def stepObserveOnly (ctx : Context) (s : VerificationRequest)
    (t : Transition) : Except VError VerificationRequest :=
  if s.observeOnly = false then
    if t.phase = PHASE_REQUESTED then
      match transitionEvent t with
      | Except.error e => Except.error e
      | Except.ok ev =>
        if wasSentByOwnUser ctx ev = true ∧ wasSentByOwnDevice ctx ev = false
        then Except.ok { s with observeOnly := true }
        else Except.ok s
    else if t.phase = PHASE_STARTED ∨ t.phase = PHASE_READY then
      match transitionEvent t with
      | Except.error e => Except.error e
      | Except.ok ev =>
        Except.ok { s with observeOnly := !(wasSentByOwnDevice ctx ev) }
    else Except.ok s
  else Except.ok s

/-- The "create verifier" block of `_transitionToPhase` (lines 413-420),
guarded by `phase === PHASE_STARTED` — the number, which no transition
produced by `calculatePhaseTransitions` carries. -/
def stepVerifier (ctx : Context) (s : VerificationRequest) (t : Transition) :
    Except VError VerificationRequest :=
  if t.phase = PHASE_STARTED then
    match transitionEvent t with
    | Except.error e => Except.error e
    | Except.ok ev =>
      if s.verifier = none ∧ s.observeOnly = false then
        match createVerifier ctx s ev.content.method (some ev) none with
        | Except.error e => Except.error e
        | Except.ok v => Except.ok (handleStart { s with verifier := v } t)
      else Except.ok (handleStart s t)
  else Except.ok s

/-- `_transitionToPhase`: the side effects of reaching one phase. -/
def transitionToPhase (ctx : Context) (s : VerificationRequest)
    (t : Transition) : Except VError VerificationRequest :=
  match stepCommonMethods ctx s t with
  | Except.error e => Except.error e
  | Except.ok s1 =>
    match stepObserveOnly ctx s1 t with
    | Except.error e => Except.error e
    | Except.ok s2 => stepVerifier ctx s2 t

/-- `findIndex(t => t.phase === this._phase)`: first index, `-1` if absent. -/
def findPhaseIdx (p : PhaseValue) : List Transition → Int
  | [] => -1
  | t :: ts =>
    if t.phase = p then 0
    else
      let r := findPhaseIdx p ts
      if r = -1 then -1 else r + 1

/-- `transitions.slice(existingIdx + 1)`: the tail of transitions not yet
gone through (the whole list when the current phase is not found). -/
def newTail (p : PhaseValue) (l : List Transition) : List Transition :=
  l.drop (findPhaseIdx p l + 1).toNat

/-- The sender classification and bookkeeping store of `handleEvent`
(lines 436-444). -/
def storeEvent (ctx : Context) (ty : String) (ev : Event)
    (s : VerificationRequest) : VerificationRequest :=
  if ev.sender = ctx.userId then
    { s with eventsByUs := mapSet s.eventsByUs ty ev }
  else if ev.sender = ctx.otherUserId then
    { s with eventsByThem := mapSet s.eventsByThem ty ev }
  else s

/-- The verifier forwarding step of `handleEvent` (lines 456-461): only
counterparty events, only cancellations or declared types. -/
def forwardToVerifier (ctx : Context) (ty : String) (ev : Event)
    (s : VerificationRequest) : VerificationRequest :=
  match s.verifier with
  | some v =>
    if ev.sender = ctx.otherUserId ∧ (ty = CANCEL_TYPE ∨ v.events.contains ty)
    then { s with verifier := some { v with handledEvents := v.handledEvents ++ [ev] } }
    else s
  | none => s

/-- The first two steps of `handleEvent` (lines 431-444): force observe-only
for historical deliveries, then store the message on its sender's side. -/
def ingest (ctx : Context) (ty : String) (ev : Event) (isLiveEvent : Bool)
    (s : VerificationRequest) : VerificationRequest :=
  storeEvent ctx ty ev
    (if isLiveEvent then s else { s with observeOnly := true })

/-- The new transitions of one `handleEvent` pass (lines 446-449): the
recomputed chain, sliced after the first index carrying the current phase. -/
def newTransitionsOf (ctx : Context) (ty : String) (ev : Event)
    (isLiveEvent : Bool) (s : VerificationRequest) : List Transition :=
  newTail (ingest ctx ty ev isLiveEvent s).phase
    (calculatePhaseTransitions ctx (ingest ctx ty ev isLiveEvent s))

/-- `handleEvent`: the inbound entry point.  The returned `Bool` records
whether `_setPhase` fired the `"change"` notification (it does exactly when
new transitions were applied). -/
def handleEvent (ctx : Context) (ty : String) (ev : Event) (isLiveEvent : Bool)
    (s : VerificationRequest) : Except VError (VerificationRequest × Bool) :=
  match (newTransitionsOf ctx ty ev isLiveEvent s).foldlM
      (fun st t => transitionToPhase ctx st t)
      (ingest ctx ty ev isLiveEvent s) with
  | Except.error e => Except.error e
  | Except.ok s2 =>
    match (newTransitionsOf ctx ty ev isLiveEvent s).getLast? with
    | some t => Except.ok ({ forwardToVerifier ctx ty ev s2 with phase := t.phase }, true)
    | none => Except.ok (forwardToVerifier ctx ty ev s2, false)

/-- Modelled from the spec: `beginKeyVerification` calls
`this._hasValidPreStartPhase()`, a method defined nowhere under `src/`.
Per spec section 4.6 the method check applies once the request has reached
a phase where negotiation is known (Requested/Ready/Started), and per the
source comment "need to allow also when unsent in case of to_device" the
Unsent phase qualifies when the channel can create a request from a start
message. -/
def hasValidPreStartPhase (ctx : Context) (s : VerificationRequest) : Bool :=
  decide (s.phase = PHASE_REQUESTED) || decide (s.phase = PHASE_READY) ||
    decide (s.phase = PHASE_STARTED) ||
    (decide (s.phase = PHASE_UNSENT) && ctx.canCreateRequestStart)

/-- `beginKeyVerification`: returns the possibly updated request and either
the thrown error or the returned (possibly absent) verifier. -/
def beginKeyVerification (ctx : Context) (s : VerificationRequest)
    (method : String) (targetDevice : Option VerifierTarget) :
    VerificationRequest × Except VError (Option Verifier) :=
  if s.observeOnly = false ∧ s.verifier = none then
    if hasValidPreStartPhase ctx s = true then
      if s.commonMethods ≠ [] ∧ s.commonMethods.contains method = false then
        (s, Except.error VError.unknownMethod)
      else
        match createVerifier ctx s (some method) none targetDevice with
        | Except.error e => (s, Except.error e)
        | Except.ok none => (s, Except.error VError.unknownMethod)
        | Except.ok (some v) =>
          ({ s with verifier := some v }, Except.ok (some v))
    else (s, Except.ok s.verifier)
  else (s, Except.ok s.verifier)

/-- `sendRequest`: returns the updated request and the advertised method
list when the request message is actually sent. -/
def sendRequest (ctx : Context) (s : VerificationRequest) :
    VerificationRequest × Option (List String) :=
  if s.observeOnly = false ∧ s.phase = PHASE_UNSENT then
    ({ s with initiatedByMe := some true }, some ctx.verificationMethods)
  else (s, none)

/-- What `cancel` did: nothing, delegation to the verifier, or an outbound
cancellation send. -/
inductive CancelMode where
  | noop
  | delegated (code reason : String)
  | sent (code reason : String)
  deriving DecidableEq, Repr

/-- `cancel({reason, code})`. -/
def cancel (ctx : Context) (s : VerificationRequest) (code reason : String) :
    VerificationRequest × CancelMode :=
  if s.observeOnly = false ∧ s.phase ≠ PHASE_CANCELLED then
    match s.verifier with
    | some _ => (s, CancelMode.delegated code reason)
    | none =>
      ({ s with cancellingUserId := some ctx.userId }, CancelMode.sent code reason)
  else (s, CancelMode.noop)

/-- `accept`: returns the advertised method list when the ready message is
actually sent.  `!this.initiatedByMe` is JS falsiness: `undefined` counts. -/
def accept (ctx : Context) (s : VerificationRequest) :
    VerificationRequest × Option (List String) :=
  if s.observeOnly = false ∧ s.phase = PHASE_REQUESTED ∧
      s.initiatedByMe ≠ some true then
    (s, some ctx.verificationMethods)
  else (s, none)

/-- States reachable from construction through successful handling of
structurally valid inbound messages and the outbound lifecycle calls. -/
inductive Reachable (ctx : Context) : VerificationRequest → Prop where
  | init : Reachable ctx initialState
  | handle {s s' : VerificationRequest} {ty : String} {ev : Event}
      {live b : Bool} : Reachable ctx s → structuralValid ty ev = true →
      handleEvent ctx ty ev live s = Except.ok (s', b) → Reachable ctx s'
  | send {s : VerificationRequest} : Reachable ctx s →
      Reachable ctx (sendRequest ctx s).1
  | acc {s : VerificationRequest} : Reachable ctx s →
      Reachable ctx (accept ctx s).1
  | canc {s : VerificationRequest} {code reason : String} : Reachable ctx s →
      Reachable ctx (cancel ctx s code reason).1
  | begin_ {s : VerificationRequest} {m : String} {t : Option VerifierTarget} :
      Reachable ctx s → Reachable ctx (beginKeyVerification ctx s m t).1

/-- The reachability invariant: the recorded phase is the top of the
recomputed transition chain. -/
def Inv (ctx : Context) (s : VerificationRequest) : Prop :=
  topPhase (calculatePhaseTransitions ctx s) = s.phase

/-- A message of this type and sender side is already recorded verbatim in
the bookkeeping (it was processed before). -/
def AlreadyStored (ctx : Context) (s : VerificationRequest) (ty : String)
    (ev : Event) : Prop :=
  (ev.sender = ctx.userId ∧ mapGet s.eventsByUs ty = some ev) ∨
  (ev.sender ≠ ctx.userId ∧ ev.sender = ctx.otherUserId ∧
    mapGet s.eventsByThem ty = some ev)

/-! ### Concrete data used to exercise the definitions -/

/-- A concrete collaborator set: Alice's device on a channel to Bob, one
registered method, a channel that can create a request from a start
message. -/
def wCtx : Context where
  userId := "@alice:hs"
  deviceId := "ALICE1"
  otherUserId := "@bob:hs"
  verificationMethods := ["m.sas.v1"]
  canCreateRequestStart := true
  verifierEvents := []

/-- `wCtx` with a second registered method. -/
def wCtx2 : Context := { wCtx with
  verificationMethods := ["m.sas.v1", "m.reciprocate.v1"] }

def wCancelThem : Event where
  sender := "@bob:hs"
  content := { code := some "m.user", reason := some "User declined" }

def wStartThem : Event where
  sender := "@bob:hs"
  content := { method := some "m.sas.v1", from_device := some "BOB1" }

def wDoneUs : Event where
  sender := "@alice:hs"
  content := {}

def wDoneThem : Event where
  sender := "@bob:hs"
  content := {}

/-- A request authored by the local user from the local device itself. -/
def wReqOwnDevice : Event where
  sender := "@alice:hs"
  content := { methods := some ["m.sas.v1"], from_device := some "ALICE1" }

/-- A request authored by the local user from another of their devices. -/
def wReqOtherDevice : Event where
  sender := "@alice:hs"
  content := { methods := some ["m.sas.v1"], from_device := some "ALICE2" }

def wReadyThem : Event where
  sender := "@bob:hs"
  content := { methods := some ["m.sas.v1", "m.qr.v1"],
               from_device := some "BOB1" }

/-- The state after handling `wCancelThem` from construction. -/
def wCancelled : VerificationRequest :=
  { initialState with
      phase := PHASE_CANCELLED
      eventsByThem := [(CANCEL_TYPE, wCancelThem)] }

/-- `wCancelled` after additionally handling `wDoneThem`. -/
def wCancelled2 : VerificationRequest :=
  { wCancelled with
      eventsByThem := [(CANCEL_TYPE, wCancelThem), (DONE_TYPE, wDoneThem)] }

/-- The state after handling `wStartThem` from construction: the recorded
phase is the string `START_TYPE`, and no verifier was created. -/
def c1s : VerificationRequest :=
  { initialState with
      phase := START_TYPE_PHASE
      eventsByThem := [(START_TYPE, wStartThem)] }

/-- `c1s` after additionally handling Alice's `done` message. -/
def c2s2 : VerificationRequest :=
  { c1s with eventsByUs := [(DONE_TYPE, wDoneUs)] }

/-- `c2s2` after additionally handling Bob's `done` message: both done
messages are stored while the top phase is the started marker. -/
def c2s3 : VerificationRequest :=
  { c2s2 with
      eventsByThem := [(START_TYPE, wStartThem), (DONE_TYPE, wDoneThem)] }

/-- The state after Alice's own request has been handled. -/
def c3s1 : VerificationRequest :=
  { initialState with
      phase := PHASE_REQUESTED
      eventsByUs := [(REQUEST_TYPE, wReqOwnDevice)] }

/-- `c3s1` after Bob's ready: phase Ready, methods negotiated. -/
def c3s2 : VerificationRequest :=
  { c3s1 with
      phase := PHASE_READY
      commonMethods := ["m.sas.v1"]
      observeOnly := true
      eventsByThem := [(READY_TYPE, wReadyThem)] }

/-- `c3s2` after Bob's cancel: phase Cancelled, but `cancellingUserId` was
never assigned. -/
def c3s3 : VerificationRequest :=
  { c3s2 with
      phase := PHASE_CANCELLED
      eventsByThem := [(READY_TYPE, wReadyThem), (CANCEL_TYPE, wCancelThem)] }

/-- The result of applying the Ready transition caused by `wReadyThem` to a
fresh request under `wCtx2`. -/
def c6s : VerificationRequest :=
  { initialState with
      commonMethods := ["m.sas.v1"]
      observeOnly := true }

/-- A request whose negotiation is known: phase Requested with
`commonMethods` populated. -/
def c7s : VerificationRequest :=
  { initialState with
      phase := PHASE_REQUESTED
      commonMethods := ["m.sas.v1"] }

/-- The state after the own-device request `wReqOwnDevice` is handled:
phase Requested but `observeOnly` still false. -/
def c9s : VerificationRequest :=
  { initialState with
      phase := PHASE_REQUESTED
      eventsByUs := [(REQUEST_TYPE, wReqOwnDevice)] }

/-- The state reached by handling `wReqOtherDevice` from construction. -/
def c9s2 : VerificationRequest :=
  { initialState with
      phase := PHASE_REQUESTED
      commonMethods := ["m.sas.v1"]
      observeOnly := true
      eventsByUs := [(REQUEST_TYPE, wReqOtherDevice)] }

/-- An observe-only state. -/
def w10s : VerificationRequest := { initialState with observeOnly := true }

/-- `w10s` after handling Bob's cancel. -/
def w10s2 : VerificationRequest :=
  { wCancelled with observeOnly := true }

/-! ### Lemmas about the association-list maps -/

theorem mapGet_mapSet (m : List (String × Event)) (k k' : String) (v : Event) :
    mapGet (mapSet m k v) k' = if k' = k then some v else mapGet m k' := by
  induction m with
  | nil =>
    by_cases h : k' = k
    · subst h; simp [mapSet, mapGet]
    · simp [mapSet, mapGet, h, Ne.symm h]
  | cons p rest ih =>
    obtain ⟨p1, p2⟩ := p
    by_cases hpk : p1 = k
    · subst hpk
      by_cases hk : k' = p1
      · subst hk; simp [mapSet, mapGet]
      · simp [mapSet, mapGet, hk, Ne.symm hk]
    · by_cases hpk' : p1 = k'
      · subst hpk'
        have hk : ¬ (p1 = k) := hpk
        simp [mapSet, mapGet, hk, Ne.symm hk]
      · simp [mapSet, mapGet, hpk, hpk', ih]

theorem mapSet_get_self {m : List (String × Event)} {k : String} {v : Event}
    (h : mapGet m k = some v) : mapSet m k v = m := by
  induction m with
  | nil => simp [mapGet] at h
  | cons p rest ih =>
    obtain ⟨p1, p2⟩ := p
    by_cases hk : p1 = k
    · simp [mapGet, hk] at h
      simp [mapSet, hk, h]
    · simp [mapGet, hk] at h
      simp [mapSet, hk, ih h]

/-! ### Shape of the three `_transitionToPhase` blocks -/

theorem stepCommonMethods_shape {ctx : Context} {s s' : VerificationRequest}
    {t : Transition} (h : stepCommonMethods ctx s t = Except.ok s') :
    s' = { s with commonMethods := s'.commonMethods } := by
  unfold stepCommonMethods at h
  split at h
  · split at h
    · cases h
    · split at h
      · split at h
        · cases h; rfl
        · cases h
      · cases h; rfl
  · cases h; rfl

theorem stepObserveOnly_shape {ctx : Context} {s s' : VerificationRequest}
    {t : Transition} (h : stepObserveOnly ctx s t = Except.ok s') :
    s' = { s with observeOnly := s'.observeOnly } := by
  unfold stepObserveOnly at h
  split at h
  · split at h
    · split at h
      · cases h
      · split at h
        · cases h; rfl
        · cases h; rfl
    · split at h
      · split at h
        · cases h
        · cases h; rfl
      · cases h; rfl
  · cases h; rfl

/-- When already observe-only, the observe-only block does nothing. -/
theorem stepObserveOnly_of_true {ctx : Context} {s : VerificationRequest}
    {t : Transition} (h : s.observeOnly = true) :
    stepObserveOnly ctx s t = Except.ok s := by
  unfold stepObserveOnly
  simp [h]

theorem handleStart_shape (s : VerificationRequest) (t : Transition) :
    handleStart s t = { s with verifier := (handleStart s t).verifier } := by
  unfold handleStart
  cases hv : s.verifier <;> cases he : t.event <;> simp [hv, he] <;> rw [← hv]

theorem stepVerifier_shape {ctx : Context} {s s' : VerificationRequest}
    {t : Transition} (h : stepVerifier ctx s t = Except.ok s') :
    s' = { s with verifier := s'.verifier } := by
  unfold stepVerifier at h
  split at h
  · split at h
    · cases h
    · split at h
      · split at h
        · cases h
        · cases h
          exact handleStart_shape _ _
      · cases h
        exact handleStart_shape _ _
  · cases h; rfl

theorem transitionToPhase_preserves {ctx : Context}
    {s s' : VerificationRequest} {t : Transition}
    (h : transitionToPhase ctx s t = Except.ok s') :
    s'.phase = s.phase ∧ s'.eventsByUs = s.eventsByUs ∧
    s'.eventsByThem = s.eventsByThem ∧
    s'.initiatedByMe = s.initiatedByMe ∧
    s'.cancellingUserId = s.cancellingUserId ∧
    s'.requestEvent = s.requestEvent ∧ s'.readyEvent = s.readyEvent := by
  unfold transitionToPhase at h
  split at h
  · cases h
  · rename_i s1 h1
    split at h
    · cases h
    · rename_i s2 h2
      have e1 := stepCommonMethods_shape h1
      have e2 := stepObserveOnly_shape h2
      have e3 := stepVerifier_shape h
      refine ⟨?_, ?_, ?_, ?_, ?_, ?_, ?_⟩ <;> rw [e3, e2, e1]

/-- The observe-only flag is never reset by a transition application. -/
theorem transitionToPhase_observeOnly_mono {ctx : Context}
    {s s' : VerificationRequest} {t : Transition}
    (h : transitionToPhase ctx s t = Except.ok s')
    (ho : s.observeOnly = true) : s'.observeOnly = true := by
  unfold transitionToPhase at h
  split at h
  · cases h
  · rename_i s1 h1
    split at h
    · cases h
    · rename_i s2 h2
      have e1 := stepCommonMethods_shape h1
      have ho1 : s1.observeOnly = true := by rw [e1]; exact ho
      rw [stepObserveOnly_of_true ho1] at h2
      cases h2
      have e3 := stepVerifier_shape h
      rw [e3]; exact ho1

/-! ### The transition fold of `handleEvent` -/

theorem foldTransitions_preserves {ctx : Context} :
    ∀ {ts : List Transition} {s s2 : VerificationRequest},
    ts.foldlM (fun st t => transitionToPhase ctx st t) s = Except.ok s2 →
    s2.phase = s.phase ∧ s2.eventsByUs = s.eventsByUs ∧
      s2.eventsByThem = s.eventsByThem := by
  intro ts
  induction ts with
  | nil =>
    intro s s2 h
    cases h
    exact ⟨rfl, rfl, rfl⟩
  | cons t ts ih =>
    intro s s2 h
    rw [List.foldlM_cons] at h
    cases h1 : transitionToPhase ctx s t with
    | error e => rw [h1] at h; cases h
    | ok s1 =>
      rw [h1] at h
      have hrest : ts.foldlM (fun st t => transitionToPhase ctx st t) s1 =
          Except.ok s2 := h
      have p1 := transitionToPhase_preserves h1
      have p2 := ih hrest
      exact ⟨p2.1.trans p1.1, p2.2.1.trans p1.2.1, p2.2.2.trans p1.2.2.1⟩

theorem foldTransitions_observeOnly_mono {ctx : Context} :
    ∀ {ts : List Transition} {s s2 : VerificationRequest},
    ts.foldlM (fun st t => transitionToPhase ctx st t) s = Except.ok s2 →
    s.observeOnly = true → s2.observeOnly = true := by
  intro ts
  induction ts with
  | nil =>
    intro s s2 h ho
    cases h
    exact ho
  | cons t ts ih =>
    intro s s2 h ho
    rw [List.foldlM_cons] at h
    cases h1 : transitionToPhase ctx s t with
    | error e => rw [h1] at h; cases h
    | ok s1 =>
      rw [h1] at h
      exact ih h (transitionToPhase_observeOnly_mono h1 ho)

/-! ### Bookkeeping and forwarding steps -/

theorem storeEvent_fields (ctx : Context) (ty : String) (ev : Event)
    (s : VerificationRequest) :
    (storeEvent ctx ty ev s).phase = s.phase ∧
    (storeEvent ctx ty ev s).observeOnly = s.observeOnly ∧
    (storeEvent ctx ty ev s).commonMethods = s.commonMethods ∧
    (storeEvent ctx ty ev s).verifier = s.verifier ∧
    (storeEvent ctx ty ev s).cancellingUserId = s.cancellingUserId := by
  unfold storeEvent
  split <;> try split
  all_goals exact ⟨rfl, rfl, rfl, rfl, rfl⟩

theorem forwardToVerifier_fields (ctx : Context) (ty : String) (ev : Event)
    (s : VerificationRequest) :
    (forwardToVerifier ctx ty ev s).phase = s.phase ∧
    (forwardToVerifier ctx ty ev s).eventsByUs = s.eventsByUs ∧
    (forwardToVerifier ctx ty ev s).eventsByThem = s.eventsByThem ∧
    (forwardToVerifier ctx ty ev s).observeOnly = s.observeOnly ∧
    (forwardToVerifier ctx ty ev s).commonMethods = s.commonMethods ∧
    (forwardToVerifier ctx ty ev s).cancellingUserId = s.cancellingUserId := by
  unfold forwardToVerifier
  split <;> try split
  all_goals exact ⟨rfl, rfl, rfl, rfl, rfl, rfl⟩

/-! ### `findIndex` / `slice` lemmas -/

theorem findPhaseIdx_ge (p : PhaseValue) (l : List Transition) :
    findPhaseIdx p l = -1 ∨ 0 ≤ findPhaseIdx p l := by
  induction l with
  | nil => left; rfl
  | cons t ts ih =>
    by_cases ht : t.phase = p
    · right; simp [findPhaseIdx, ht]
    · rcases ih with h | h
      · left; simp [findPhaseIdx, ht, h]
      · right
        simp only [findPhaseIdx, ht, if_false]
        split
        · omega
        · omega

theorem newTail_getLast {p : PhaseValue} {l : List Transition}
    {t : Transition} (h : (newTail p l).getLast? = some t) :
    l.getLast? = some t := by
  unfold newTail at h
  rw [List.getLast?_drop] at h
  split at h
  · cases h
  · exact h

theorem getLast_some_mem {α : Type} {l : List α} {a : α}
    (h : l.getLast? = some a) : a ∈ l := by
  obtain ⟨hne, he⟩ := List.mem_getLast?_eq_getLast h
  rw [he]
  exact List.getLast_mem hne

theorem getLast_cons_ne {α : Type} {a : α} {ts : List α} (h : ts ≠ []) :
    (a :: ts).getLast? = ts.getLast? := by
  cases ts with
  | nil => exact absurd rfl h
  | cons b ts' => exact List.getLast?_cons_cons

theorem findPhaseIdx_cons (p : PhaseValue) (a : Transition)
    (ts : List Transition) :
    findPhaseIdx p (a :: ts) =
      if a.phase = p then 0
      else if findPhaseIdx p ts = -1 then -1 else findPhaseIdx p ts + 1 := by
  simp [findPhaseIdx]

theorem newTail_cons_hit {p : PhaseValue} {a : Transition}
    {ts : List Transition} (h : a.phase = p) : newTail p (a :: ts) = ts := by
  unfold newTail
  rw [findPhaseIdx_cons, if_pos h]
  norm_num

theorem newTail_cons_found {p : PhaseValue} {a : Transition}
    {ts : List Transition} (h : ¬ a.phase = p)
    (hf : findPhaseIdx p ts ≠ -1) :
    newTail p (a :: ts) = newTail p ts := by
  have h0 : 0 ≤ findPhaseIdx p ts := (findPhaseIdx_ge p ts).resolve_left hf
  unfold newTail
  rw [findPhaseIdx_cons, if_neg h, if_neg hf]
  have harith : (findPhaseIdx p ts + 1 + 1).toNat
      = (findPhaseIdx p ts + 1).toNat + 1 := by omega
  rw [harith, List.drop_succ_cons]

theorem newTail_cons_notfound {p : PhaseValue} {a : Transition}
    {ts : List Transition} (h : ¬ a.phase = p)
    (hf : findPhaseIdx p ts = -1) : newTail p (a :: ts) = a :: ts := by
  unfold newTail
  rw [findPhaseIdx_cons, if_neg h, if_pos hf]
  norm_num

theorem newTail_eq_nil_getLast {p : PhaseValue} :
    ∀ {l : List Transition}, l ≠ [] → newTail p l = [] →
    ∃ t, l.getLast? = some t ∧ t.phase = p := by
  intro l
  induction l with
  | nil => intro hne; exact absurd rfl hne
  | cons a ts ih =>
    intro _ h
    by_cases ha : a.phase = p
    · rw [newTail_cons_hit ha] at h
      subst h
      exact ⟨a, by simp, ha⟩
    · by_cases hf : findPhaseIdx p ts = -1
      · rw [newTail_cons_notfound ha hf] at h
        cases h
      · rw [newTail_cons_found ha hf] at h
        have hts : ts ≠ [] := by
          intro hnil
          rw [hnil] at hf
          exact hf rfl
        obtain ⟨t, hlast, hph⟩ := ih hts h
        exact ⟨t, by rw [getLast_cons_ne hts]; exact hlast, hph⟩

theorem newTail_of_getLast {p : PhaseValue} :
    ∀ {l : List Transition} {t : Transition},
    (l.map Transition.phase).Nodup → l.getLast? = some t → t.phase = p →
    newTail p l = [] := by
  intro l
  induction l with
  | nil => intro t _ h; cases h
  | cons a ts ih =>
    intro t hnd hlast hp
    cases ts with
    | nil =>
      simp only [List.getLast?_singleton, Option.some.injEq] at hlast
      subst hlast
      rw [newTail_cons_hit hp]
    | cons b ts' =>
      rw [List.getLast?_cons_cons] at hlast
      have htmem : t ∈ b :: ts' := getLast_some_mem hlast
      simp only [List.map_cons, List.nodup_cons] at hnd
      have hap : ¬ (a.phase = p) := by
        intro hap
        apply hnd.1
        rw [hap, ← hp]
        exact List.mem_map_of_mem Transition.phase htmem
      have hnd' : ((b :: ts').map Transition.phase).Nodup := by
        simpa using hnd.2
      have hsub : newTail p (b :: ts') = [] := ih hnd' hlast hp
      have hf : findPhaseIdx p (b :: ts') ≠ -1 := by
        intro hf
        unfold newTail at hsub
        rw [hf] at hsub
        norm_num at hsub
        exact List.cons_ne_nil b ts' hsub
      rw [newTail_cons_found hap hf]
      exact hsub

/-! ### Shape of the recomputed transition chain -/

theorem topPhase_of_map {l : List Transition} {ps : List PhaseValue}
    (h : l.map Transition.phase = ps) :
    topPhase l = (ps.getLast?).getD PHASE_UNSENT := by
  unfold topPhase
  rw [h]

theorem calcAfterRequest_shape (ctx : Context) (s : VerificationRequest) :
    (calcAfterRequest ctx s).map Transition.phase = [PHASE_UNSENT] ∨
    (calcAfterRequest ctx s).map Transition.phase
      = [PHASE_UNSENT, PHASE_REQUESTED] ∨
    (calcAfterRequest ctx s).map Transition.phase
      = [PHASE_UNSENT, PHASE_REQUESTED, PHASE_READY] := by
  unfold calcAfterRequest
  cases h1 : getEventByEither s REQUEST_TYPE with
  | none => left; simp [h1]
  | some re =>
    cases h2 : getEventByOther ctx s READY_TYPE re.sender with
    | none => right; left; simp [h1, h2]
    | some ry => right; right; simp [h1, h2]

theorem calcAfterStart_shape (ctx : Context) (s : VerificationRequest) :
    (calcAfterStart ctx s).map Transition.phase
      = (calcAfterRequest ctx s).map Transition.phase ∨
    (calcAfterStart ctx s).map Transition.phase
      = (calcAfterRequest ctx s).map Transition.phase ++ [START_TYPE_PHASE] := by
  unfold calcAfterStart
  cases getEventByEither s START_TYPE with
  | none => left; rfl
  | some se =>
    simp only []
    split
    · right; simp
    · left; rfl

theorem calc_of_cancel {ctx : Context} {s : VerificationRequest} {ce : Event}
    (h : getEventByEither s CANCEL_TYPE = some ce) :
    calculatePhaseTransitions ctx s =
      [{ phase := PHASE_UNSENT },
       { phase := PHASE_CANCELLED, event := some ce }] := by
  unfold calculatePhaseTransitions
  rw [h]

theorem calc_of_nocancel {ctx : Context} {s : VerificationRequest}
    (h : getEventByEither s CANCEL_TYPE = none) :
    calculatePhaseTransitions ctx s = calcAfterStart ctx s := by
  unfold calculatePhaseTransitions
  rw [h]
  simp [mapProp]

theorem calc_shape (ctx : Context) (s : VerificationRequest) :
    ((∃ ce, getEventByEither s CANCEL_TYPE = some ce) ∧
      (calculatePhaseTransitions ctx s).map Transition.phase
        = [PHASE_UNSENT, PHASE_CANCELLED]) ∨
    (calculatePhaseTransitions ctx s).map Transition.phase ∈
      ([[PHASE_UNSENT],
        [PHASE_UNSENT, START_TYPE_PHASE],
        [PHASE_UNSENT, PHASE_REQUESTED],
        [PHASE_UNSENT, PHASE_REQUESTED, START_TYPE_PHASE],
        [PHASE_UNSENT, PHASE_REQUESTED, PHASE_READY],
        [PHASE_UNSENT, PHASE_REQUESTED, PHASE_READY, START_TYPE_PHASE]] :
        List (List PhaseValue)) := by
  cases hc : getEventByEither s CANCEL_TYPE with
  | some ce =>
    left
    exact ⟨⟨ce, rfl⟩, by rw [calc_of_cancel hc]; simp⟩
  | none =>
    right
    rw [calc_of_nocancel hc]
    rcases calcAfterStart_shape ctx s with h | h <;>
      rcases calcAfterRequest_shape ctx s with h' | h' | h' <;>
      rw [h, h'] <;> simp

theorem calc_ne_nil (ctx : Context) (s : VerificationRequest) :
    calculatePhaseTransitions ctx s ≠ [] := by
  intro hnil
  rcases calc_shape ctx s with ⟨_, h⟩ | h <;> rw [hnil] at h <;> simp at h

theorem calc_phases_nodup (ctx : Context) (s : VerificationRequest) :
    ((calculatePhaseTransitions ctx s).map Transition.phase).Nodup := by
  rcases calc_shape ctx s with ⟨_, h⟩ | h
  · rw [h]; decide
  · simp only [List.mem_cons, List.not_mem_nil, or_false] at h
    rcases h with h | h | h | h | h | h
    all_goals rw [h]
    all_goals decide

theorem calc_top_ne_done (ctx : Context) (s : VerificationRequest) :
    topPhase (calculatePhaseTransitions ctx s) ≠ PHASE_DONE := by
  rcases calc_shape ctx s with ⟨_, h⟩ | h
  · rw [topPhase_of_map h]; decide
  · simp only [List.mem_cons, List.not_mem_nil, or_false] at h
    rcases h with h | h | h | h | h | h
    all_goals rw [topPhase_of_map h]
    all_goals decide

theorem calc_top_cancelled {ctx : Context} {s : VerificationRequest}
    (h : topPhase (calculatePhaseTransitions ctx s) = PHASE_CANCELLED) :
    ∃ ce, getEventByEither s CANCEL_TYPE = some ce := by
  rcases calc_shape ctx s with ⟨he, _⟩ | hm
  · exact he
  · exfalso
    simp only [List.mem_cons, List.not_mem_nil, or_false] at hm
    rcases hm with hm | hm | hm | hm | hm | hm
    all_goals rw [topPhase_of_map hm] at h
    all_goals exact absurd h (by decide)

/-- The transition chain depends only on the two bookkeeping maps. -/
theorem calc_congr {ctx : Context} {s s' : VerificationRequest}
    (hUs : s'.eventsByUs = s.eventsByUs)
    (hThem : s'.eventsByThem = s.eventsByThem) :
    calculatePhaseTransitions ctx s' = calculatePhaseTransitions ctx s := by
  unfold calculatePhaseTransitions calcAfterStart calcAfterRequest
    getEventByEither getEventByOther mapProp
  rw [hUs, hThem]

theorem topPhase_of_getLast {l : List Transition} {t : Transition}
    (h : l.getLast? = some t) : topPhase l = t.phase := by
  unfold topPhase
  rw [List.getLast?_map, h]
  rfl

/-! ### `handleEvent`-level lemmas -/

theorem ingest_phase (ctx : Context) (ty : String) (ev : Event) (live : Bool)
    (s : VerificationRequest) : (ingest ctx ty ev live s).phase = s.phase := by
  unfold ingest
  rw [(storeEvent_fields ctx ty ev _).1]
  split <;> rfl

theorem ingest_observeOnly_mono (ctx : Context) (ty : String) (ev : Event)
    (live : Bool) (s : VerificationRequest) (ho : s.observeOnly = true) :
    (ingest ctx ty ev live s).observeOnly = true := by
  unfold ingest
  rw [(storeEvent_fields ctx ty ev _).2.1]
  split
  · exact ho
  · rfl

/-- Inversion of one successful `handleEvent` pass. -/
theorem handleEvent_ok {ctx : Context} {ty : String} {ev : Event}
    {live b : Bool} {s s' : VerificationRequest}
    (hh : handleEvent ctx ty ev live s = Except.ok (s', b)) :
    ∃ s2, (newTransitionsOf ctx ty ev live s).foldlM
        (fun st t => transitionToPhase ctx st t)
        (ingest ctx ty ev live s) = Except.ok s2 ∧
      ((∃ t, (newTransitionsOf ctx ty ev live s).getLast? = some t ∧
          s' = { forwardToVerifier ctx ty ev s2 with phase := t.phase } ∧
          b = true) ∨
        ((newTransitionsOf ctx ty ev live s).getLast? = none ∧
          s' = forwardToVerifier ctx ty ev s2 ∧ b = false)) := by
  unfold handleEvent at hh
  cases hf : (newTransitionsOf ctx ty ev live s).foldlM
      (fun st t => transitionToPhase ctx st t) (ingest ctx ty ev live s) with
  | error e => rw [hf] at hh; cases hh
  | ok s2 =>
    rw [hf] at hh
    cases hl : (newTransitionsOf ctx ty ev live s).getLast? with
    | some t =>
      rw [hl] at hh
      injection hh with hh
      injection hh with h1 h2
      exact ⟨s2, rfl, Or.inl ⟨t, rfl, h1.symm, h2.symm⟩⟩
    | none =>
      rw [hl] at hh
      injection hh with hh
      injection hh with h1 h2
      exact ⟨s2, rfl, Or.inr ⟨rfl, h1.symm, h2.symm⟩⟩

/-- After every successful `handleEvent` pass the recorded phase is the top
of the transition chain recomputed from the resulting bookkeeping. -/
theorem handleEvent_establishes_Inv {ctx : Context} {ty : String} {ev : Event}
    {live b : Bool} {s s' : VerificationRequest}
    (hh : handleEvent ctx ty ev live s = Except.ok (s', b)) : Inv ctx s' := by
  obtain ⟨s2, hf, hcase⟩ := handleEvent_ok hh
  have hpres := foldTransitions_preserves hf
  have hfw := forwardToVerifier_fields ctx ty ev s2
  rcases hcase with ⟨t, hl, rfl, rfl⟩ | ⟨hl, rfl, rfl⟩
  · have hmUs : ({ forwardToVerifier ctx ty ev s2 with
        phase := t.phase }).eventsByUs = (ingest ctx ty ev live s).eventsByUs := by
      show (forwardToVerifier ctx ty ev s2).eventsByUs = _
      rw [hfw.2.1, hpres.2.1]
    have hmThem : ({ forwardToVerifier ctx ty ev s2 with
        phase := t.phase }).eventsByThem = (ingest ctx ty ev live s).eventsByThem := by
      show (forwardToVerifier ctx ty ev s2).eventsByThem = _
      rw [hfw.2.2.1, hpres.2.2]
    unfold Inv
    rw [calc_congr hmUs hmThem]
    have hlast := newTail_getLast (p := (ingest ctx ty ev live s).phase) hl
    rw [topPhase_of_getLast hlast]
  · rw [List.getLast?_eq_none_iff] at hl
    unfold newTransitionsOf at hl
    obtain ⟨t, hlast, hph⟩ :=
      newTail_eq_nil_getLast (calc_ne_nil ctx (ingest ctx ty ev live s)) hl
    have hmUs : (forwardToVerifier ctx ty ev s2).eventsByUs
        = (ingest ctx ty ev live s).eventsByUs := by rw [hfw.2.1, hpres.2.1]
    have hmThem : (forwardToVerifier ctx ty ev s2).eventsByThem
        = (ingest ctx ty ev live s).eventsByThem := by rw [hfw.2.2.1, hpres.2.2]
    unfold Inv
    rw [calc_congr hmUs hmThem, topPhase_of_getLast hlast, hph, hfw.1, hpres.1]

/-- Fields other than `phase` and the bookkeeping maps do not matter to the
invariant. -/
theorem Inv_congr {ctx : Context} {s s' : VerificationRequest}
    (hUs : s'.eventsByUs = s.eventsByUs)
    (hThem : s'.eventsByThem = s.eventsByThem)
    (hph : s'.phase = s.phase) (h : Inv ctx s) : Inv ctx s' := by
  unfold Inv at h ⊢
  rw [calc_congr hUs hThem, hph]
  exact h

theorem sendRequest_preserves (ctx : Context) (s : VerificationRequest) :
    (sendRequest ctx s).1.phase = s.phase ∧
    (sendRequest ctx s).1.eventsByUs = s.eventsByUs ∧
    (sendRequest ctx s).1.eventsByThem = s.eventsByThem ∧
    (sendRequest ctx s).1.observeOnly = s.observeOnly := by
  unfold sendRequest
  split <;> exact ⟨rfl, rfl, rfl, rfl⟩

theorem accept_preserves (ctx : Context) (s : VerificationRequest) :
    (accept ctx s).1 = s := by
  unfold accept
  split <;> rfl

theorem cancel_preserves (ctx : Context) (s : VerificationRequest)
    (code reason : String) :
    (cancel ctx s code reason).1.phase = s.phase ∧
    (cancel ctx s code reason).1.eventsByUs = s.eventsByUs ∧
    (cancel ctx s code reason).1.eventsByThem = s.eventsByThem ∧
    (cancel ctx s code reason).1.observeOnly = s.observeOnly := by
  unfold cancel
  split
  · split <;> exact ⟨rfl, rfl, rfl, rfl⟩
  · exact ⟨rfl, rfl, rfl, rfl⟩

theorem beginKeyVerification_preserves (ctx : Context)
    (s : VerificationRequest) (m : String) (td : Option VerifierTarget) :
    (beginKeyVerification ctx s m td).1.phase = s.phase ∧
    (beginKeyVerification ctx s m td).1.eventsByUs = s.eventsByUs ∧
    (beginKeyVerification ctx s m td).1.eventsByThem = s.eventsByThem ∧
    (beginKeyVerification ctx s m td).1.observeOnly = s.observeOnly := by
  unfold beginKeyVerification
  split
  · split
    · split
      · exact ⟨rfl, rfl, rfl, rfl⟩
      · split <;> exact ⟨rfl, rfl, rfl, rfl⟩
    · exact ⟨rfl, rfl, rfl, rfl⟩
  · exact ⟨rfl, rfl, rfl, rfl⟩

/-- Every reachable state satisfies the phase invariant. -/
theorem reachable_Inv {ctx : Context} {s : VerificationRequest}
    (hr : Reachable ctx s) : Inv ctx s := by
  induction hr with
  | init => rfl
  | handle _ _ hh _ => exact handleEvent_establishes_Inv hh
  | send _ ih =>
    exact Inv_congr (sendRequest_preserves _ _).2.1
      (sendRequest_preserves _ _).2.2.1 (sendRequest_preserves _ _).1 ih
  | acc _ ih => rw [accept_preserves]; exact ih
  | canc _ ih =>
    exact Inv_congr (cancel_preserves _ _ _ _).2.1
      (cancel_preserves _ _ _ _).2.2.1 (cancel_preserves _ _ _ _).1 ih
  | begin_ _ ih =>
    exact Inv_congr (beginKeyVerification_preserves _ _ _ _).2.1
      (beginKeyVerification_preserves _ _ _ _).2.2.1
      (beginKeyVerification_preserves _ _ _ _).1 ih

/-- Storing a further message never removes a recorded message of another
slot: a cancel visible to `_getEventByEither` stays visible. -/
theorem getEventByEither_store {ctx : Context} {ty k : String}
    {ev ce : Event} {s : VerificationRequest}
    (h : getEventByEither s k = some ce) :
    ∃ ce1, getEventByEither (storeEvent ctx ty ev s) k = some ce1 := by
  unfold getEventByEither at h
  unfold storeEvent
  split
  · show ∃ ce1, getEventByEither
      { s with eventsByUs := mapSet s.eventsByUs ty ev } k = some ce1
    unfold getEventByEither
    cases h1 : mapGet s.eventsByThem k with
    | some e => exact ⟨e, rfl⟩
    | none =>
      have h2 : mapGet s.eventsByUs k = some ce := by
        rw [h1] at h
        exact h
      by_cases hk : k = ty
      · refine ⟨ev, ?_⟩
        show mapGet (mapSet s.eventsByUs ty ev) k = some ev
        rw [mapGet_mapSet, if_pos hk]
      · refine ⟨ce, ?_⟩
        show mapGet (mapSet s.eventsByUs ty ev) k = some ce
        rw [mapGet_mapSet, if_neg hk]
        exact h2
  · split
    · show ∃ ce1, getEventByEither
        { s with eventsByThem := mapSet s.eventsByThem ty ev } k = some ce1
      unfold getEventByEither
      by_cases hk : k = ty
      · refine ⟨ev, ?_⟩
        show (match mapGet (mapSet s.eventsByThem ty ev) k with
          | some e => some e
          | none => mapGet s.eventsByUs k) = some ev
        rw [mapGet_mapSet, if_pos hk]
      · cases h1 : mapGet s.eventsByThem k with
        | some e =>
          refine ⟨e, ?_⟩
          show (match mapGet (mapSet s.eventsByThem ty ev) k with
            | some e => some e
            | none => mapGet s.eventsByUs k) = some e
          rw [mapGet_mapSet, if_neg hk, h1]
        | none =>
          have h2 : mapGet s.eventsByUs k = some ce := by
            rw [h1] at h
            exact h
          refine ⟨ce, ?_⟩
          show (match mapGet (mapSet s.eventsByThem ty ev) k with
            | some e => some e
            | none => mapGet s.eventsByUs k) = some ce
          rw [mapGet_mapSet, if_neg hk, h1]
          exact h2
    · exact ⟨ce, h⟩

theorem getEventByEither_ingest {ctx : Context} {ty k : String}
    {ev ce : Event} {live : Bool} {s : VerificationRequest}
    (h : getEventByEither s k = some ce) :
    ∃ ce1, getEventByEither (ingest ctx ty ev live s) k = some ce1 := by
  unfold ingest
  apply getEventByEither_store
  cases live with
  | true => exact h
  | false => exact h

/-! ### The claims -/

/-- C1: the claim fails on the code.  Handling an eligible inbound start
message (fresh request, live, not observe-only, no verifier, registered
method) pushes the *string* `START_TYPE` as the transition's phase, so the
`phase === PHASE_STARTED` guard of `_transitionToPhase` never fires: no
verifier is created, nothing is delivered to one, and the recorded phase is
the string, not the Started phase value. -/
theorem c1_started_verifier_code_bug :
    initialState.verifier = none ∧ initialState.observeOnly = false ∧
    wCtx.verificationMethods.contains "m.sas.v1" = true ∧
    wStartThem.content.method = some "m.sas.v1" ∧
    handleEvent wCtx START_TYPE wStartThem true initialState
      = Except.ok (c1s, true) ∧
    c1s.verifier = none ∧
    c1s.phase = START_TYPE_PHASE ∧
    c1s.phase ≠ PHASE_STARTED := by decide

/-- C2: the claim fails on the code.  With an eligible start handled and
both sides' done messages recorded in the bookkeeping maps while the top
computed phase is the started marker, the recomputed transition list still
does not end with Done (the done events are read through property access on
the `Map`s), and repeated handling never moves the phase to Done. -/
theorem c2_done_transition_code_bug :
    handleEvent wCtx START_TYPE wStartThem true initialState
      = Except.ok (c1s, true) ∧
    handleEvent wCtx DONE_TYPE wDoneUs true c1s = Except.ok (c2s2, false) ∧
    handleEvent wCtx DONE_TYPE wDoneThem true c2s2
      = Except.ok (c2s3, false) ∧
    mapGet c2s3.eventsByUs DONE_TYPE = some wDoneUs ∧
    mapGet c2s3.eventsByThem DONE_TYPE = some wDoneThem ∧
    topPhase (calculatePhaseTransitions wCtx c2s3) = START_TYPE_PHASE ∧
    (calculatePhaseTransitions wCtx c2s3).map Transition.phase
      = [PHASE_UNSENT, START_TYPE_PHASE] ∧
    c2s3.phase ≠ PHASE_DONE ∧
    handleEvent wCtx DONE_TYPE wDoneThem true c2s3
      = Except.ok (c2s3, false) := by decide

/-- C3: the claim fails on the code.  An inbound cancel with code "m.user"
arriving after phase Ready moves the phase to Cancelled, but
`_cancellingUserId` is never assigned during inbound handling (only the
local `cancel()` call assigns it), so it does not equal the cancel
message's sender. -/
theorem c3_cancellingUserId_code_bug :
    handleEvent wCtx REQUEST_TYPE wReqOwnDevice true initialState
      = Except.ok (c3s1, true) ∧
    handleEvent wCtx READY_TYPE wReadyThem true c3s1
      = Except.ok (c3s2, true) ∧
    c3s2.phase = PHASE_READY ∧
    wCancelThem.content.code = some "m.user" ∧
    handleEvent wCtx CANCEL_TYPE wCancelThem true c3s2
      = Except.ok (c3s3, true) ∧
    c3s3.phase = PHASE_CANCELLED ∧
    c3s3.cancellingUserId = none ∧
    c3s3.cancellingUserId ≠ some wCancelThem.sender := by decide

/-- C4: once a reachable request's phase is Cancelled or Done, handling any
further inbound message leaves the phase unchanged. -/
theorem c4_terminal_phases {ctx : Context} {s s' : VerificationRequest}
    {ty : String} {ev : Event} {live b : Bool}
    (hr : Reachable ctx s)
    (hterm : s.phase = PHASE_CANCELLED ∨ s.phase = PHASE_DONE)
    (hh : handleEvent ctx ty ev live s = Except.ok (s', b)) :
    s'.phase = s.phase := by
  have hinv := reachable_Inv hr
  unfold Inv at hinv
  rcases hterm with hc | hd
  · obtain ⟨ce, hce⟩ := @calc_top_cancelled ctx s (by rw [hinv, hc])
    obtain ⟨ce1, hce1⟩ :=
      @getEventByEither_ingest ctx ty CANCEL_TYPE ev ce live s hce
    have hcalc := @calc_of_cancel ctx _ _ hce1
    have hnt : newTransitionsOf ctx ty ev live s = [] := by
      unfold newTransitionsOf
      rw [hcalc, ingest_phase, hc]
      refine newTail_of_getLast
        (t := { phase := PHASE_CANCELLED, event := some ce1 }) ?_ ?_ rfl
      · have hmap : List.map Transition.phase
            [{ phase := PHASE_UNSENT, event := none },
             ({ phase := PHASE_CANCELLED, event := some ce1 } : Transition)]
            = [PHASE_UNSENT, PHASE_CANCELLED] := rfl
        rw [hmap]
        decide
      · rw [List.getLast?_cons_cons, List.getLast?_singleton]
    obtain ⟨s2, hf, hcase⟩ := handleEvent_ok hh
    rw [hnt, List.foldlM_nil] at hf
    have hs2 : Except.ok (ingest ctx ty ev live s) = Except.ok s2 := hf
    injection hs2 with hs2
    rcases hcase with ⟨t, hl, rfl, rfl⟩ | ⟨hl, rfl, rfl⟩
    · rw [hnt] at hl
      simp at hl
    · rw [(forwardToVerifier_fields ctx ty ev s2).1, ← hs2, ingest_phase]
  · exfalso
    rw [hd] at hinv
    exact calc_top_ne_done ctx s hinv

/-- C5: re-delivering an already recorded message (same type, same sender
side, same message) produces no new transitions, leaves the phase and the
bookkeeping unchanged, and fires no change notification. -/
theorem c5_redelivery_idempotent {ctx : Context} {s s' : VerificationRequest}
    {ty : String} {ev : Event} {live b : Bool}
    (hr : Reachable ctx s) (hst : AlreadyStored ctx s ty ev)
    (hh : handleEvent ctx ty ev live s = Except.ok (s', b)) :
    newTransitionsOf ctx ty ev live s = [] ∧ s'.phase = s.phase ∧
    b = false ∧ s'.eventsByUs = s.eventsByUs ∧
    s'.eventsByThem = s.eventsByThem := by
  have hinv := reachable_Inv hr
  unfold Inv at hinv
  have h0us : (if live then s else { s with observeOnly := true }).eventsByUs
      = s.eventsByUs := by split <;> rfl
  have h0them : (if live then s
      else { s with observeOnly := true }).eventsByThem
      = s.eventsByThem := by split <;> rfl
  have hmaps : (ingest ctx ty ev live s).eventsByUs = s.eventsByUs ∧
      (ingest ctx ty ev live s).eventsByThem = s.eventsByThem := by
    unfold ingest storeEvent
    rcases hst with ⟨hs, hget⟩ | ⟨hne, hs, hget⟩
    · rw [if_pos hs]
      refine ⟨?_, h0them⟩
      show mapSet (if live then s
        else { s with observeOnly := true }).eventsByUs ty ev = s.eventsByUs
      rw [h0us]
      exact mapSet_get_self hget
    · rw [if_neg hne, if_pos hs]
      refine ⟨h0us, ?_⟩
      show mapSet (if live then s
        else { s with observeOnly := true }).eventsByThem ty ev
        = s.eventsByThem
      rw [h0them]
      exact mapSet_get_self hget
  have hcalc : calculatePhaseTransitions ctx (ingest ctx ty ev live s)
      = calculatePhaseTransitions ctx s := calc_congr hmaps.1 hmaps.2
  obtain ⟨t, hlast⟩ : ∃ t,
      (calculatePhaseTransitions ctx s).getLast? = some t := by
    cases hgl : (calculatePhaseTransitions ctx s).getLast? with
    | none =>
      exact ((calc_ne_nil ctx s) (List.getLast?_eq_none_iff.mp hgl)).elim
    | some t => exact ⟨t, rfl⟩
  have hph : t.phase = s.phase := (topPhase_of_getLast hlast).symm.trans hinv
  have hnt : newTransitionsOf ctx ty ev live s = [] := by
    unfold newTransitionsOf
    rw [hcalc, ingest_phase]
    exact newTail_of_getLast (calc_phases_nodup ctx s) hlast hph
  obtain ⟨s2, hf, hcase⟩ := handleEvent_ok hh
  rw [hnt, List.foldlM_nil] at hf
  have hs2 : Except.ok (ingest ctx ty ev live s) = Except.ok s2 := hf
  injection hs2 with hs2
  rcases hcase with ⟨t2, hl, rfl, rfl⟩ | ⟨hl, rfl, rfl⟩
  · rw [hnt] at hl
    simp at hl
  · have hfw := forwardToVerifier_fields ctx ty ev s2
    refine ⟨hnt, ?_, rfl, ?_, ?_⟩
    · rw [hfw.1, ← hs2, ingest_phase]
    · rw [hfw.2.1, ← hs2]
      exact hmaps.1
    · rw [hfw.2.2.1, ← hs2]
      exact hmaps.2

/-- C6: applying a Requested or Ready transition caused by a message not
sent by the own device replaces `commonMethods` with exactly the set
intersection of the message's advertised methods and the locally supported
method set — membership is equivalent, so never a superset. -/
theorem c6_commonMethods_intersection {ctx : Context}
    {s s' : VerificationRequest} {t : Transition} {ev : Event}
    {ms : List String}
    (hph : t.phase = PHASE_REQUESTED ∨ t.phase = PHASE_READY)
    (hev : t.event = some ev)
    (hloc : wasSentByOwnDevice ctx ev = false)
    (hms : ev.content.methods = some ms)
    (hok : transitionToPhase ctx s t = Except.ok s') :
    ∀ m, m ∈ s'.commonMethods ↔ (m ∈ ms ∧ m ∈ ctx.verificationMethods) := by
  have htev : transitionEvent t = Except.ok ev := by
    unfold transitionEvent
    rw [hev]
  have h1 : stepCommonMethods ctx s t = Except.ok { s with commonMethods := ms.filter (fun m => ctx.verificationMethods.contains m) } := by
    unfold stepCommonMethods
    rw [if_pos hph]
    simp [htev, hloc, hms]
  have hns : ¬ (t.phase = PHASE_STARTED) := by
    rcases hph with h | h <;> rw [h] <;> decide
  unfold transitionToPhase at hok
  rw [h1] at hok
  have hok2 : (match stepObserveOnly ctx { s with commonMethods := ms.filter (fun m => ctx.verificationMethods.contains m) } t with
    | Except.error e => Except.error e
    | Except.ok s2 => stepVerifier ctx s2 t) = Except.ok s' := hok
  cases h2 : stepObserveOnly ctx { s with commonMethods := ms.filter (fun m => ctx.verificationMethods.contains m) } t with
  | error e => rw [h2] at hok2; cases hok2
  | ok s2 =>
    rw [h2] at hok2
    have hok3 : stepVerifier ctx s2 t = Except.ok s' := hok2
    unfold stepVerifier at hok3
    rw [if_neg hns] at hok3
    injection hok3 with hok3
    have e2 := stepObserveOnly_shape h2
    have hcm : s'.commonMethods
        = ms.filter (fun m => ctx.verificationMethods.contains m) := by
      rw [← hok3, e2]
    intro m
    rw [hcm, List.mem_filter]
    constructor
    · rintro ⟨hmem, hcont⟩
      exact ⟨hmem, by simpa using hcont⟩
    · rintro ⟨hmem, hcont⟩
      exact ⟨hmem, by simpa using hcont⟩

/-- C7: with a request that is not observe-only, has no verifier, and whose
phase is one where method negotiation is known, `beginKeyVerification` with
a method outside the non-empty `commonMethods` throws the unknown-method
error and leaves the request without a verifier. -/
theorem c7_begin_unknown_method {ctx : Context} {s : VerificationRequest}
    {method : String} {td : Option VerifierTarget}
    (hobs : s.observeOnly = false)
    (hver : s.verifier = none)
    (hph : s.phase = PHASE_REQUESTED ∨ s.phase = PHASE_READY)
    (hneg : s.commonMethods ≠ [])
    (hnot : s.commonMethods.contains method = false) :
    beginKeyVerification ctx s method td
      = (s, Except.error VError.unknownMethod) ∧
    (beginKeyVerification ctx s method td).1.verifier = none := by
  have hpre : hasValidPreStartPhase ctx s = true := by
    unfold hasValidPreStartPhase
    rcases hph with h | h <;> rw [h] <;> simp
  have hmain : beginKeyVerification ctx s method td
      = (s, Except.error VError.unknownMethod) := by
    unfold beginKeyVerification
    rw [if_pos ⟨hobs, hver⟩, if_pos hpre, if_pos ⟨hneg, hnot⟩]
  exact ⟨hmain, by rw [hmain]; exact hver⟩

/-- C8: for a structurally well-formed message carrying a finite timestamp,
the validator rejects exactly when `elapsed > 600000 - 3000` or
`elapsed < -(600000 / 2)` (milliseconds); with no timestamp supplied, no
timing-based rejection occurs. -/
theorem c8_validator_timing {ty : String} {ev : Event} (ts now : Int)
    (hpre : strStartsWith ty EVENT_PREFIX = true)
    (hm : (ty = REQUEST_TYPE ∨ ty = READY_TYPE) →
      ev.content.methods ≠ none)
    (hfd : (ty = REQUEST_TYPE ∨ ty = READY_TYPE ∨ ty = START_TYPE) →
      fromDeviceOk ev = true) :
    (validateEvent ty ev (some ts) now = false ↔
      (now - ts > 600000 - 3000 ∨ now - ts < -(600000 / 2))) ∧
    validateEvent ty ev none now = true := by
  have e1 : VERIFICATION_REQUEST_TIMEOUT - VERIFICATION_REQUEST_MARGIN
      = (600000 - 3000 : Int) := by decide
  have e2 : -(VERIFICATION_REQUEST_TIMEOUT / 2) = (-(600000 / 2) : Int) := by
    decide
  constructor
  · unfold validateEvent
    rw [if_neg (by simp [hpre]), if_neg (by rintro ⟨h1, h2⟩; exact hm h1 h2),
      if_neg (by rintro ⟨h1, h2⟩; rw [hfd h1] at h2; cases h2)]
    show (if now - ts > VERIFICATION_REQUEST_TIMEOUT
          - VERIFICATION_REQUEST_MARGIN ∨
        now - ts < -(VERIFICATION_REQUEST_TIMEOUT / 2) then false else true)
        = false ↔ _
    rw [e1, e2]
    by_cases hcond : (now - ts > 600000 - 3000 ∨ now - ts < -(600000 / 2))
    · rw [if_pos hcond]
      exact iff_of_true rfl hcond
    · rw [if_neg hcond]
      exact iff_of_false (by simp) hcond
  · unfold validateEvent
    rw [if_neg (by simp [hpre]), if_neg (by rintro ⟨h1, h2⟩; exact hm h1 h2),
      if_neg (by rintro ⟨h1, h2⟩; rw [hfd h1] at h2; cases h2)]

/-- C10: the observe-only flag starts false at construction and is
monotone: no inbound handling pass, transition application, or outbound
lifecycle call ever resets it from true back to false. -/
theorem c10_observeOnly_monotone (ctx : Context) :
    initialState.observeOnly = false ∧
    (∀ (s s' : VerificationRequest) (ty : String) (ev : Event)
      (live b : Bool), s.observeOnly = true →
      handleEvent ctx ty ev live s = Except.ok (s', b) →
      s'.observeOnly = true) ∧
    (∀ (s s' : VerificationRequest) (t : Transition),
      s.observeOnly = true → transitionToPhase ctx s t = Except.ok s' →
      s'.observeOnly = true) ∧
    (∀ s : VerificationRequest,
      (sendRequest ctx s).1.observeOnly = s.observeOnly) ∧
    (∀ s : VerificationRequest,
      (accept ctx s).1.observeOnly = s.observeOnly) ∧
    (∀ (s : VerificationRequest) (code reason : String),
      (cancel ctx s code reason).1.observeOnly = s.observeOnly) ∧
    (∀ (s : VerificationRequest) (m : String) (td : Option VerifierTarget),
      (beginKeyVerification ctx s m td).1.observeOnly = s.observeOnly) := by
  refine ⟨rfl, ?_, ?_, ?_, ?_, ?_, ?_⟩
  · intro s s' ty ev live b ho hh
    obtain ⟨s2, hf, hcase⟩ := handleEvent_ok hh
    have h2 : s2.observeOnly = true :=
      foldTransitions_observeOnly_mono hf
        (ingest_observeOnly_mono ctx ty ev live s ho)
    have hfw := (forwardToVerifier_fields ctx ty ev s2).2.2.2.1
    rcases hcase with ⟨t, hl, rfl, rfl⟩ | ⟨hl, rfl, rfl⟩
    · show (forwardToVerifier ctx ty ev s2).observeOnly = true
      rw [hfw]
      exact h2
    · rw [hfw]
      exact h2
  · intro s s' t ho h
    exact transitionToPhase_observeOnly_mono h ho
  · intro s
    exact (sendRequest_preserves ctx s).2.2.2
  · intro s
    rw [accept_preserves]
  · intro s code reason
    exact (cancel_preserves ctx s code reason).2.2.2
  · intro s m td
    exact (beginKeyVerification_preserves ctx s m td).2.2.2

/-- C9, counterexample: a request whose sender is the local user and whose
`from_device` equals the local device id (the local echo of the own
request) reaches Requested with `observeOnly` still false, and `accept()`
is not a no-op there (it sends a ready message), contrary to the claim. -/
theorem c9_counterexample :
    wReqOwnDevice.sender = wCtx.userId ∧
    wReqOwnDevice.content.from_device = some wCtx.deviceId ∧
    handleEvent wCtx REQUEST_TYPE wReqOwnDevice true initialState
      = Except.ok (c9s, true) ∧
    c9s.phase = PHASE_REQUESTED ∧
    c9s.observeOnly = false ∧
    accept wCtx c9s = (c9s, some ["m.sas.v1"]) := by decide

/-- C9, amended: a request message authored by the local user from a
*different* device than the local one reaches Requested with `observeOnly`
set to true, and `accept()` and `cancel()` are then no-ops. -/
theorem c9_other_device_observe {ctx : Context} {ev : Event} {d : String}
    {ms : List String}
    (hsender : ev.sender = ctx.userId)
    (hfd : ev.content.from_device = some d)
    (hd : d ≠ ctx.deviceId)
    (hms : ev.content.methods = some ms) :
    ∃ s', handleEvent ctx REQUEST_TYPE ev true initialState
        = Except.ok (s', true) ∧
      s'.phase = PHASE_REQUESTED ∧ s'.observeOnly = true ∧
      accept ctx s' = (s', none) ∧
      cancel ctx s' "m.user" "User declined" = (s', CancelMode.noop) := by
  have hwod : wasSentByOwnDevice ctx ev = false := by
    unfold wasSentByOwnDevice wasSentByOwnUser
    rw [hfd]
    simp [hd]
  have hwou : wasSentByOwnUser ctx ev = true := by
    unfold wasSentByOwnUser
    simp [hsender]
  have hing : ingest ctx REQUEST_TYPE ev true initialState = { initialState with eventsByUs := [(REQUEST_TYPE, ev)] } := by
    unfold ingest storeEvent
    rw [if_pos (show ev.sender = ctx.userId from hsender)]
    rfl
  have hne1 : ¬ (REQUEST_TYPE = CANCEL_TYPE) := by decide
  have hne2 : ¬ (REQUEST_TYPE = START_TYPE) := by decide
  have hne3 : ¬ (REQUEST_TYPE = READY_TYPE) := by decide
  have hcalcBase : calculatePhaseTransitions ctx { initialState with eventsByUs := [(REQUEST_TYPE, ev)] } = [{ phase := PHASE_UNSENT }, { phase := PHASE_REQUESTED, event := some ev }] := by
    unfold calculatePhaseTransitions calcAfterStart calcAfterRequest
      getEventByEither getEventByOther mapProp
    simp [mapGet, hsender, hne1, hne2, hne3, initialState]
  have hnew : newTransitionsOf ctx REQUEST_TYPE ev true initialState = [{ phase := PHASE_REQUESTED, event := some ev }] := by
    unfold newTransitionsOf
    rw [hing, hcalcBase]
    rw [show ({ initialState with eventsByUs := [(REQUEST_TYPE, ev)] } : VerificationRequest).phase = PHASE_UNSENT from rfl]
    exact newTail_cons_hit rfl
  have hstep : transitionToPhase ctx { initialState with eventsByUs := [(REQUEST_TYPE, ev)] } { phase := PHASE_REQUESTED, event := some ev } = Except.ok { initialState with commonMethods := ms.filter (fun m => ctx.verificationMethods.contains m), observeOnly := true, eventsByUs := [(REQUEST_TYPE, ev)] } := by
    have hp1 : ¬ (PHASE_REQUESTED = PHASE_STARTED) := by decide
    unfold transitionToPhase stepCommonMethods stepObserveOnly stepVerifier
      transitionEvent
    simp [hwod, hwou, hms, hp1, initialState]
  refine ⟨{ initialState with
      phase := PHASE_REQUESTED
      commonMethods := ms.filter (fun m => ctx.verificationMethods.contains m)
      observeOnly := true
      eventsByUs := [(REQUEST_TYPE, ev)] }, ?_, rfl, rfl, ?_, ?_⟩
  · unfold handleEvent
    rw [hnew, hing]
    simp only [List.foldlM_cons, List.foldlM_nil, hstep, bind_pure]
    rfl
  · simp [accept]
  · simp [cancel]

/-- Witness for C4 at a concrete input: a cancelled request stays cancelled
when a further done message is handled. -/
theorem c4_terminal_phases_witness :
    wCancelled.phase = PHASE_CANCELLED ∧
    wCancelled2.phase = wCancelled.phase := by
  refine ⟨by decide, ?_⟩
  exact c4_terminal_phases
    (Reachable.handle Reachable.init
      (by decide : structuralValid CANCEL_TYPE wCancelThem = true)
      (by decide : handleEvent wCtx CANCEL_TYPE wCancelThem true initialState
        = Except.ok (wCancelled, true)))
    (Or.inl (by decide))
    (by decide : handleEvent wCtx DONE_TYPE wDoneThem true wCancelled
      = Except.ok (wCancelled2, false))

/-- Witness for C5 at a concrete input: redelivering the stored cancel. -/
theorem c5_redelivery_idempotent_witness :
    newTransitionsOf wCtx CANCEL_TYPE wCancelThem true wCancelled = [] ∧
    wCancelled.phase = wCancelled.phase ∧ false = false ∧
    wCancelled.eventsByUs = wCancelled.eventsByUs ∧
    wCancelled.eventsByThem = wCancelled.eventsByThem :=
  c5_redelivery_idempotent
    (Reachable.handle Reachable.init
      (by decide : structuralValid CANCEL_TYPE wCancelThem = true)
      (by decide : handleEvent wCtx CANCEL_TYPE wCancelThem true initialState
        = Except.ok (wCancelled, true)))
    (Or.inr ⟨by decide, by decide, by decide⟩)
    (by decide : handleEvent wCtx CANCEL_TYPE wCancelThem true wCancelled
      = Except.ok (wCancelled, false))

/-- Witness for C6 at a concrete input: Bob advertises two methods, Alice
supports a different pair; the computed common methods decide membership as
the intersection. -/
theorem c6_commonMethods_intersection_witness :
    ("m.sas.v1" ∈ c6s.commonMethods ↔
      ("m.sas.v1" ∈ ["m.sas.v1", "m.qr.v1"] ∧
        "m.sas.v1" ∈ wCtx2.verificationMethods)) ∧
    ("m.qr.v1" ∈ c6s.commonMethods ↔
      ("m.qr.v1" ∈ ["m.sas.v1", "m.qr.v1"] ∧
        "m.qr.v1" ∈ wCtx2.verificationMethods)) :=
  ⟨@c6_commonMethods_intersection wCtx2 initialState c6s
      { phase := PHASE_READY, event := some wReadyThem } wReadyThem
      ["m.sas.v1", "m.qr.v1"] (Or.inr rfl) rfl (by decide) rfl
      (by decide) "m.sas.v1",
    @c6_commonMethods_intersection wCtx2 initialState c6s
      { phase := PHASE_READY, event := some wReadyThem } wReadyThem
      ["m.sas.v1", "m.qr.v1"] (Or.inr rfl) rfl (by decide) rfl
      (by decide) "m.qr.v1"⟩

/-- Witness for C7 at a concrete input: beginning verification with
"m.qr.v1" when only "m.sas.v1" was negotiated. -/
theorem c7_begin_unknown_method_witness :
    beginKeyVerification wCtx c7s "m.qr.v1" none
      = (c7s, Except.error VError.unknownMethod) ∧
    (beginKeyVerification wCtx c7s "m.qr.v1" none).1.verifier = none :=
  c7_begin_unknown_method (by decide) (by decide) (Or.inl (by decide))
    (by decide) (by decide)

/-- Witness for C8 at a concrete input: a request sent 20 minutes ago. -/
theorem c8_validator_timing_witness :
    (validateEvent REQUEST_TYPE wReqOwnDevice (some 0) 1200000 = false ↔
      ((1200000 : Int) - 0 > 600000 - 3000 ∨
        (1200000 : Int) - 0 < -(600000 / 2))) ∧
    validateEvent REQUEST_TYPE wReqOwnDevice none 1200000 = true :=
  c8_validator_timing 0 1200000 (by decide) (fun _ => by decide)
    (fun _ => by decide)

/-- Witness for the amended C9 at a concrete input: a request from Alice's
other device ALICE2. -/
theorem c9_other_device_observe_witness :
    (handleEvent wCtx REQUEST_TYPE wReqOtherDevice true initialState).map
      (fun p => (p.1.phase, p.1.observeOnly, p.2))
      = Except.ok (PHASE_REQUESTED, true, true) := by
  obtain ⟨s', hh, hph, hobs, _⟩ :=
    @c9_other_device_observe wCtx wReqOtherDevice "ALICE2" ["m.sas.v1"]
      rfl rfl (by decide) rfl
  rw [hh]
  simp [Except.map, hph, hobs]

/-- Witness for C10 at a concrete input: an observe-only request stays
observe-only across a cancel delivery. -/
theorem c10_observeOnly_monotone_witness : w10s2.observeOnly = true :=
  (c10_observeOnly_monotone wCtx).2.1 w10s w10s2 CANCEL_TYPE wCancelThem
    true true rfl
    (by decide : handleEvent wCtx CANCEL_TYPE wCancelThem true w10s
      = Except.ok (w10s2, true))

end MatrixVerification
